import Mathlib

/-!
Shallow embedding of `src/daemon.c` of the keyd daemon: the config registry,
the virtual-sink keystate, the device manager, the IPC command handler, the
layer-broadcast back-pressure loop, and the central event dispatcher.
External collaborators (the keyboard interpreter `kbd_process_key_event` /
`kbd_eval`, the matcher `config_check_match`, the OS write/grab calls) are
modelled as function-valued parameters; their observable invocations are
recorded in an effect trace.
-/

namespace Keyd

set_option maxRecDepth 8000

/-- `VKBD_NAME` from daemon.c: the sentinel name of the virtual sink device. -/
def VKBD_NAME : String := "keyd virtual keyboard"

/-- Modelled from the spec: `MAX_DEVICES` is the device-table capacity constant
from `keyd.h`, which is not among the sources; its exact value is immaterial
to every claim, it is fixed here as 64. -/
def MAX_DEVICES : Nat := 64

/-- Modelled from the spec: the "reserved external-mouse-button code" defined
in `keyd.h` (not among the sources); its exact value is immaterial. -/
def KEYD_EXTERNAL_MOUSE_BUTTON : Nat := 764

/-- A parsed configuration; `checkMatch` is the external collaborator
`config_check_match(&ent->config, id)` (spec §6: returns 0, 1 or 2). -/
structure Config where
  path : String
  checkMatch : Nat → Nat

/-- `struct config_ent`: a parsed config plus its keyboard instance.
Keyboard instances are opaque collaborators, identified by a number. -/
structure ConfigEnt where
  config : Config
  kbd : Nat

/-- `struct device`: identity, capability bits, grab state and the opaque
keyboard association `dev->data`.  `grab_ok` records whether the OS call
`device_grab` would succeed on this device (an environment outcome). -/
structure Device where
  path : String
  name : String
  vendor_id : Nat
  product_id : Nat
  cap_keyboard : Bool
  cap_mouse : Bool
  cap_mouse_abs : Bool
  grab_ok : Bool
  grabbed : Bool
  data : Option Nat
  deriving DecidableEq

/-- An IPC response frame type (`IPC_SUCCESS` / `IPC_FAIL`). -/
inductive IpcReply where
  | success
  | fail (msg : String)
  deriving DecidableEq

/-- Observable effects: calls into the keyboard collaborator, the virtual
sink, and socket operations. -/
inductive Eff where
  | kbdKey (kbd code pressed : Nat)
  | sinkKey (code : Fin 256) (state : Nat)
  | sinkMouseMove (x y : Int)
  | sinkMouseMoveAbs (x y : Int)
  | sinkMouseScroll (x y : Int)
  | evalCall (kbd : Nat) (data : String)
  | reply (con : Int) (r : IpcReply)
  | closeCon (con : Int)
  | writeStr (con : Int) (s : String)
  | setSndTimeout (con : Int)
  | grab (path : String)
  | grabFail (path : String)
  | ungrab (path : String)
  deriving DecidableEq

/-- The keystate vector `uint8_t keystate[256]`. -/
def KS : Type := Fin 256 → Nat

/-- `send_key(code, state)`: record `keystate[code] = state` and forward to
the synthesized device. -/
def send_key (ks : KS) (code : Fin 256) (state : Nat) : KS × Eff :=
  (Function.update ks code state, Eff.sinkKey code state)

/-- The body of the `clear_vkbd` loop at index `i`. -/
def clear_step (acc : KS × List Eff) (i : Fin 256) : KS × List Eff :=
  if acc.1 i ≠ 0 then
    (Function.update acc.1 i 0, acc.2 ++ [Eff.sinkKey i 0])
  else acc

/-- `clear_vkbd()`: for `i = 0 .. 255`, if `keystate[i]` is non-zero send a
release and zero the entry. -/
def clear_vkbd (ks : KS) : KS × List Eff :=
  (List.finRange 256).foldl clear_step (ks, [])

/-- The body of the `lookup_config_ent` loop: keep `ent` when its rank
strictly exceeds the best rank so far (`r > rank`). -/
def lookup_step (id : Nat) (acc : Nat × Option ConfigEnt) (ent : ConfigEnt) :
    Nat × Option ConfigEnt :=
  let r := ent.config.checkMatch id
  if acc.1 < r then (r, some ent) else acc

/-- `lookup_config_ent(id, &match)`: walk the registry keeping the entry whose
`config_check_match` rank strictly exceeds the best so far; return the final
rank (initially 0) and the kept entry (initially null). -/
def lookup_config_ent (cfgs : List ConfigEnt) (id : Nat) : Nat × Option ConfigEnt :=
  cfgs.foldl (lookup_step id) (0, none)

/-- The device id computed by `manage_device`:
`dev->vendor_id << 16 | dev->product_id`. -/
def device_id (dev : Device) : Nat :=
  dev.vendor_id <<< 16 ||| dev.product_id

/-- `manage_device(dev)`: look up the best-matching entry; grab and associate
when `(match && CAP_KEYBOARD) || (match == 2 && (CAP_MOUSE | CAP_MOUSE_ABS))`,
clearing the association on grab failure; otherwise ungrab and clear. -/
def manage_device (cfgs : List ConfigEnt) (dev : Device) : Device × List Eff :=
  let m := lookup_config_ent cfgs (device_id dev)
  if (m.1 ≠ 0 ∧ dev.cap_keyboard) ∨ (m.1 = 2 ∧ (dev.cap_mouse ∨ dev.cap_mouse_abs)) then
    if dev.grab_ok then
      ({ dev with grabbed := true, data := m.2.map (·.kbd) }, [Eff.grab dev.path])
    else
      ({ dev with data := none }, [Eff.grabFail dev.path])
  else
    ({ dev with grabbed := false, data := none }, [Eff.ungrab dev.path])

/-- The registry list built by `load_configs`: each parsed entry is pushed to
the front of the list (`ent->next = configs; configs = ent`), the argument
being the parsed entries in directory read order. -/
def load_configs_list (parsed : List ConfigEnt) : List ConfigEnt :=
  parsed.foldl (fun acc ent => ent :: acc) []

/-- The daemon's process-wide mutable state: the registry `configs`, the
device table, the keystate vector, the dispatcher's `last_kbd`, and the
layer-listener set. -/
structure DaemonState where
  configs : List ConfigEnt
  devices : List Device
  keystate : KS
  lastKbd : Option Nat
  listeners : List Int

/-- The external collaborators and environment outcomes: `ipcfd`, the
keyboard interpreter (`kbd_process_key_event` as the returned timeout,
`kbd_eval` as the returned status and `errstr`), and the parsed contents of
the configuration directory in read order. -/
structure Env where
  ipcfd : Int
  kbdStep : Nat → Nat → Nat → Int
  evalFn : Nat → String → Int
  errstr : String
  dirConfigs : List ConfigEnt

/-- `free_configs()`: destroy every registry entry. -/
def free_configs (s : DaemonState) : DaemonState :=
  { s with configs := [] }

/-- `load_configs()`: reset the registry and push each parsed `.conf` entry
to the front. -/
def load_configs (env : Env) (s : DaemonState) : DaemonState :=
  { s with configs := load_configs_list env.dirConfigs }

/-- `reload()`: `free_configs`, `load_configs`, re-run `manage_device` on
every device of the table, then `clear_vkbd`. -/
def reload (env : Env) (s : DaemonState) : DaemonState × List Eff :=
  let s1 := free_configs s
  let s2 := load_configs env s1
  let managed := s2.devices.map (manage_device s2.configs)
  let s3 := { s2 with devices := managed.map Prod.fst }
  let cleared := clear_vkbd s3.keystate
  ({ s3 with keystate := cleared.1 }, (managed.map Prod.snd).flatten ++ cleared.2)

/-- `add_listener(con)`: reject with a message and close when the set already
holds `ARRAY_SIZE(listeners) = 32` connections; otherwise arm the 50 ms send
timeout and append. -/
def add_listener (listeners : List Int) (con : Int) : List Int × List Eff :=
  if listeners.length = 32 then
    (listeners, [Eff.writeStr con "Max listeners exceeded\n", Eff.closeCon con])
  else
    (listeners ++ [con], [Eff.setSndTimeout con])

/-- The broadcast line `%c%s\n` and its length `bufsz`. -/
def layer_line (name : String) (state : Bool) : String :=
  (if state then "+" else "-") ++ name ++ "\n"

/-- The body of the `layer_observer` loop: keep `fd` when `write` transferred
all of `bufsz` bytes, close it otherwise.  `writeRes` is the OS `write`
outcome per connection. -/
def layer_step (writeRes : Int → Int) (line : String)
    (acc : List Int × List Eff) (fd : Int) : List Int × List Eff :=
  if writeRes fd = (line.length : Int) then
    (acc.1 ++ [fd], acc.2 ++ [Eff.writeStr fd line])
  else
    (acc.1, acc.2 ++ [Eff.closeCon fd])

/-- `layer_observer(name, state)` (body): write the line to every listener,
keeping exactly those whose `write` returned `bufsz`. -/
def layer_observer (writeRes : Int → Int) (name : String) (state : Bool)
    (listeners : List Int) : List Int × List Eff :=
  if listeners.length = 0 then (listeners, [])
  else
    listeners.foldl (layer_step writeRes (layer_line name state)) ([], [])

/-- The IPC request types of `enum ipc_message_type` reaching the daemon. -/
inductive IpcMsgType where
  | reloadCmd
  | bindCmd
  | layerListenCmd
  | otherCmd
  deriving DecidableEq

/-- `struct ipc_message` as the daemon reads it: the type tag and the payload. -/
structure IpcMessage where
  type : IpcMsgType
  data : String

/-- `send_success(con)` as effects. -/
def send_success (con : Int) : List Eff :=
  [Eff.reply con IpcReply.success, Eff.closeCon con]

/-- `send_fail(con, ...)` as effects. -/
def send_fail (con : Int) (msg : String) : List Eff :=
  [Eff.reply con (IpcReply.fail msg), Eff.closeCon con]

/-- `handle_client(con)`: dispatch one request.  `IPC_BIND` runs `kbd_eval`
on every entry's keyboard (recorded as `evalCall` effects), succeeds iff some
call returned 0, and replies accordingly. -/
def handle_client (env : Env) (s : DaemonState) (con : Int) (msg : IpcMessage) :
    DaemonState × List Eff :=
  match msg.type with
  | IpcMsgType.reloadCmd =>
      let r := reload env s
      (r.1, r.2 ++ send_success con)
  | IpcMsgType.layerListenCmd =>
      let r := add_listener s.listeners con
      ({ s with listeners := r.1 }, r.2)
  | IpcMsgType.bindCmd =>
      let calls := s.configs.map (fun ent => Eff.evalCall ent.kbd msg.data)
      let success := s.configs.any (fun ent => env.evalFn ent.kbd msg.data = 0)
      (s, calls ++ if success then send_success con else send_fail con env.errstr)
  | IpcMsgType.otherCmd =>
      (s, send_fail con "Unknown command")

/-- `remove_device(dev)`: compact the table, dropping entries equal to `dev`. -/
def remove_device (devices : List Device) (dev : Device) : List Device :=
  devices.filter (fun d => d ≠ dev)

/-- `add_device(dev)`: `assert(nr_devices < MAX_DEVICES)` (modelled as `none`
on failure), append, then `manage_device`.  The appended table slot holds the
device as mutated by `manage_device`. -/
def add_device (s : DaemonState) (dev : Device) : Option (DaemonState × List Eff) :=
  if s.devices.length < MAX_DEVICES then
    let m := manage_device s.configs dev
    some ({ s with devices := s.devices ++ [m.1] }, m.2)
  else none

/-- The payload of `EV_DEV_EVENT` (`struct device_event`). -/
inductive DevEv where
  | key (code pressed : Nat)
  | mouseMove (x y : Int)
  | mouseMoveAbs (x y : Int)
  | mouseScroll (x y : Int)
  | otherEv
  deriving DecidableEq

/-- `struct event` as seen by `event_handler`.  An `fdActivity` event carries
the accepted connection and the request frame read from it. -/
inductive Event where
  | timeoutEv
  | devEvent (dev : Device) (devev : DevEv) (timeleft : Int)
  | devAdd (dev : Device)
  | devRemove (dev : Device)
  | fdActivity (fd : Int) (con : Int) (msg : IpcMessage)
  | unknownEv

/-- `event_handler(ev)`: the central dispatcher.  Returns the updated state,
the timeout handed back to the event loop, and the effect trace; `none`
models the aborted `assert` in `add_device`. -/
def event_handler (env : Env) (s : DaemonState) (ev : Event) :
    Option (DaemonState × Int × List Eff) :=
  match ev with
  | Event.timeoutEv =>
      match s.lastKbd with
      | none => some (s, 0, [])
      | some k => some (s, env.kbdStep k 0 0, [Eff.kbdKey k 0 0])
  | Event.devEvent dev devev timeleft =>
      match dev.data with
      | none => some (s, timeleft, [])
      | some k =>
          let s' := { s with lastKbd := some k }
          match devev with
          | DevEv.key code pressed =>
              some (s', env.kbdStep k code pressed, [Eff.kbdKey k code pressed])
          | DevEv.mouseMove x y =>
              some (s', timeleft, [Eff.sinkMouseMove x y])
          | DevEv.mouseMoveAbs x y =>
              some (s', timeleft, [Eff.sinkMouseMoveAbs x y])
          | DevEv.mouseScroll x y =>
              some (s', timeleft,
                [Eff.kbdKey k KEYD_EXTERNAL_MOUSE_BUTTON 1,
                 Eff.kbdKey k KEYD_EXTERNAL_MOUSE_BUTTON 0,
                 Eff.sinkMouseScroll x y])
          | DevEv.otherEv =>
              some (s', timeleft, [])
  | Event.devAdd dev =>
      if dev.name = VKBD_NAME then some (s, 0, [])
      else
        match add_device s dev with
        | none => none
        | some r => some (r.1, 0, r.2)
  | Event.devRemove dev =>
      some ({ s with devices := remove_device s.devices dev }, 0, [])
  | Event.fdActivity fd con msg =>
      if fd = env.ipcfd then
        let r := handle_client env s con msg
        some (r.1, 0, r.2)
      else some (s, 0, [])
  | Event.unknownEv => some (s, 0, [])

/-- Dispatch a sequence of events, accumulating the effect trace. -/
def runEvents (env : Env) (s : DaemonState) : List Event → Option (DaemonState × List Eff)
  | [] => some (s, [])
  | ev :: rest =>
      match event_handler env s ev with
      | none => none
      | some (s', _, effs) =>
          match runEvents env s' rest with
          | none => none
          | some (s'', effs') => some (s'', effs ++ effs')

/-- A keystate vector reachable from the all-zero initial state by a sequence
of `send_key` calls. -/
def Reachable (ks : KS) : Prop :=
  ∃ l : List (Fin 256 × Nat),
    ks = l.foldl (fun a p => (send_key a p.1 p.2).1) (fun _ => 0)

/-- The keyboard that `last_kbd` tracks after a sequence of events: the bound
keyboard of the most recent device event that occurred on a bound device. -/
def expectedLastKbd (init : Option Nat) (evs : List Event) : Option Nat :=
  evs.foldl
    (fun acc ev =>
      match ev with
      | Event.devEvent dev _ _ =>
          match dev.data with
          | some k => some k
          | none => acc
      | _ => acc)
    init

/-- The keyboard most recently passed a non-tick key event in a trace
(a `kbd_process_key_event` call with a non-zero code). -/
def lastNonTickKbd (effs : List Eff) : Option Nat :=
  (effs.filterMap
    (fun e =>
      match e with
      | Eff.kbdKey k code _ => if code ≠ 0 then some k else none
      | _ => none)).getLast?

/- Concrete fixtures used by witnesses and counterexamples. -/

/-- A registry entry whose matcher ranks every device 2. -/
def entRank2 : ConfigEnt :=
  { config := { path := "/etc/keyd/all.conf", checkMatch := fun _ => 2 }, kbd := 7 }

/-- A registry entry whose matcher ranks every device 1. -/
def entRank1 : ConfigEnt :=
  { config := { path := "/etc/keyd/kbd.conf", checkMatch := fun _ => 1 }, kbd := 8 }

/-- A pointer-only device whose grab would succeed. -/
def devPointer : Device :=
  { path := "/dev/input/event9", name := "mouse", vendor_id := 4, product_id := 5,
    cap_keyboard := false, cap_mouse := true, cap_mouse_abs := false,
    grab_ok := true, grabbed := false, data := none }

/-- A keyboard-capable device bound to keyboard 1. -/
def cexDevA : Device :=
  { path := "/dev/input/event1", name := "kbdA", vendor_id := 1, product_id := 1,
    cap_keyboard := true, cap_mouse := false, cap_mouse_abs := false,
    grab_ok := true, grabbed := true, data := some 1 }

/-- A mouse-capable device bound to keyboard 2. -/
def cexDevB : Device :=
  { path := "/dev/input/event2", name := "mouseB", vendor_id := 2, product_id := 2,
    cap_keyboard := false, cap_mouse := true, cap_mouse_abs := false,
    grab_ok := true, grabbed := true, data := some 2 }

/-- A device bound to no keyboard. -/
def devUnbound : Device :=
  { path := "/dev/input/event3", name := "pad", vendor_id := 3, product_id := 3,
    cap_keyboard := false, cap_mouse := false, cap_mouse_abs := false,
    grab_ok := true, grabbed := false, data := none }

/-- A concrete environment for witness runs. -/
def envW : Env :=
  { ipcfd := 5, kbdStep := fun _ _ _ => 0, evalFn := fun k _ => if k = 7 then 0 else 1,
    errstr := "parse error", dirConfigs := [entRank1, entRank2] }

/-- A concrete daemon state for witness runs. -/
def stW : DaemonState :=
  { configs := [entRank2, entRank1], devices := [cexDevA, cexDevB],
    keystate := fun _ => 0, lastKbd := none, listeners := [] }

/-- The event sequence of the `last_kbd` counterexample: a key press on the
device bound to keyboard 1, then a mouse move on the device bound to
keyboard 2. -/
def cexEvents : List Event :=
  [Event.devEvent cexDevA (DevEv.key 30 1) 0,
   Event.devEvent cexDevB (DevEv.mouseMove 1 1) 0]

/-- A keystate vector reached by one `send_key` call pressing code 30. -/
def ksW : KS :=
  [((30 : Fin 256), 1)].foldl (fun a p => (send_key a p.1 p.2).1) (fun _ => 0)

/-- The witness state with key 30 still pressed. -/
def stW2 : DaemonState :=
  { stW with keystate := ksW }

/-- The witness state with a full listener set. -/
def stFull : DaemonState :=
  { stW with listeners := List.replicate 32 0 }

/-- A `write` outcome: connection 1 transfers 5 bytes, every other one 2. -/
def wrW : Int → Int :=
  fun fd => if fd = 1 then 5 else 2

/- Registry lookup lemmas. -/

lemma foldl_lookup_fst (id : Nat) :
    ∀ (l : List ConfigEnt) (acc : Nat × Option ConfigEnt),
      (l.foldl (lookup_step id) acc).1
        = l.foldl (fun b e => max b (e.config.checkMatch id)) acc.1 := by
  intro l
  induction l with
  | nil => intro acc; rfl
  | cons e t ih =>
      intro acc
      rw [List.foldl_cons, List.foldl_cons, ih]
      congr 1
      simp only [lookup_step]
      split <;> simp <;> omega

lemma le_foldl_max (id : Nat) :
    ∀ (l : List ConfigEnt) (a : Nat),
      a ≤ l.foldl (fun b e => max b (e.config.checkMatch id)) a := by
  intro l
  induction l with
  | nil => intro a; exact le_refl a
  | cons e t ih =>
      intro a
      rw [List.foldl_cons]
      exact le_trans (Nat.le_max_left _ _) (ih _)

lemma mem_le_foldl_max (id : Nat) :
    ∀ (l : List ConfigEnt) (a : Nat) (e : ConfigEnt), e ∈ l →
      e.config.checkMatch id ≤ l.foldl (fun b x => max b (x.config.checkMatch id)) a := by
  intro l
  induction l with
  | nil => intro a e he; exact absurd he (List.not_mem_nil e)
  | cons f t ih =>
      intro a e he
      rw [List.foldl_cons]
      rcases List.mem_cons.mp he with h | h
      · subst h
        exact le_trans (Nat.le_max_right _ _) (le_foldl_max id t _)
      · exact ih _ e h

lemma foldl_max_attained (id : Nat) :
    ∀ (l : List ConfigEnt) (a : Nat),
      l.foldl (fun b x => max b (x.config.checkMatch id)) a = a ∨
      ∃ e ∈ l, e.config.checkMatch id
        = l.foldl (fun b x => max b (x.config.checkMatch id)) a := by
  intro l
  induction l with
  | nil => intro a; exact Or.inl rfl
  | cons e t ih =>
      intro a
      rw [List.foldl_cons]
      rcases ih (max a (e.config.checkMatch id)) with h | ⟨x, hx, hrk⟩
      · rw [h]
        by_cases hle : e.config.checkMatch id ≤ a
        · rw [Nat.max_eq_left hle]
          exact Or.inl rfl
        · rw [Nat.max_eq_right (le_of_not_le hle)]
          exact Or.inr ⟨e, List.mem_cons_self e t, rfl⟩
      · exact Or.inr ⟨x, List.mem_cons_of_mem e hx, hrk⟩

lemma foldl_lookup_snd (id : Nat) :
    ∀ (l : List ConfigEnt) (a : Nat) (m : Option ConfigEnt),
      (l.foldl (lookup_step id) (a, m)).2
        = if a < (l.foldl (lookup_step id) (a, m)).1
          then l.find?
            (fun e => e.config.checkMatch id == (l.foldl (lookup_step id) (a, m)).1)
          else m := by
  intro l
  induction l with
  | nil => intro a m; simp
  | cons e t ih =>
      intro a m
      rw [List.foldl_cons]
      by_cases h : a < e.config.checkMatch id
      · have hstep : lookup_step id (a, m) e = (e.config.checkMatch id, some e) := by
          simp [lookup_step, h]
        rw [hstep, ih]
        have hrkR : e.config.checkMatch id ≤ (t.foldl (lookup_step id)
            (e.config.checkMatch id, some e)).1 := by
          rw [foldl_lookup_fst]
          exact le_foldl_max id t _
        rw [if_pos (lt_of_lt_of_le h hrkR)]
        by_cases h2 : e.config.checkMatch id
            < (t.foldl (lookup_step id) (e.config.checkMatch id, some e)).1
        · rw [if_pos h2, List.find?_cons_of_neg]
          simpa using Nat.ne_of_lt h2
        · rw [if_neg h2, List.find?_cons_of_pos]
          simpa using le_antisymm hrkR (not_lt.mp h2)
      · have hstep : lookup_step id (a, m) e = (a, m) := by
          simp [lookup_step, h]
        rw [hstep, ih]
        by_cases h2 : a < (t.foldl (lookup_step id) (a, m)).1
        · rw [if_pos h2, if_pos h2, List.find?_cons_of_neg]
          simpa using Nat.ne_of_lt (lt_of_le_of_lt (not_lt.mp h) h2)
        · rw [if_neg h2, if_neg h2]

/-- The non-zero result of `lookup_config_ent` is attained, and the returned
entry is a registry member attaining it. -/
lemma lookup_ne_zero_some (cfgs : List ConfigEnt) (id : Nat)
    (h : (lookup_config_ent cfgs id).1 ≠ 0) :
    ∃ e, (lookup_config_ent cfgs id).2 = some e ∧
      e.config.checkMatch id = (lookup_config_ent cfgs id).1 ∧ e ∈ cfgs := by
  have hfst := foldl_lookup_fst id cfgs (0, none)
  have hsnd := foldl_lookup_snd id cfgs 0 none
  have hpos : 0 < (cfgs.foldl (lookup_step id) (0, none)).1 :=
    Nat.pos_of_ne_zero h
  rw [if_pos hpos] at hsnd
  have hex : ∃ x, x ∈ cfgs ∧
      (x.config.checkMatch id == (cfgs.foldl (lookup_step id) (0, none)).1) = true := by
    rcases foldl_max_attained id cfgs 0 with h0 | ⟨x, hx, hrk⟩
    · exact absurd (hfst.trans h0) h
    · exact ⟨x, hx, by simp [hrk, hfst]⟩
  obtain ⟨e, he⟩ := Option.isSome_iff_exists.mp (List.find?_isSome.mpr hex)
  refine ⟨e, ?_, ?_, List.mem_of_find?_eq_some he⟩
  · show (cfgs.foldl (lookup_step id) (0, none)).2 = some e
    rw [hsnd]
    exact he
  · have hp := List.find?_some he
    simpa [lookup_config_ent] using hp

/- Virtual sink clear lemmas. -/

lemma foldl_clear (l : List (Fin 256)) :
    ∀ (ks : KS) (effs : List Eff), l.Nodup →
      l.foldl clear_step (ks, effs)
        = ((fun j => if j ∈ l then 0 else ks j : KS),
           effs ++ (l.filter (fun i => ks i ≠ 0)).map (fun i => Eff.sinkKey i 0)) := by
  induction l with
  | nil =>
      intro ks effs _
      refine Prod.ext ?_ ?_
      · funext j
        simp
      · simp
  | cons i t ih =>
      intro ks effs hnd
      have hnotmem : i ∉ t := (List.nodup_cons.mp hnd).1
      rw [List.foldl_cons]
      by_cases h : ks i ≠ 0
      · have hstep : clear_step (ks, effs) i
            = (Function.update ks i 0, effs ++ [Eff.sinkKey i 0]) := by
          simp only [clear_step]
          rw [if_pos h]
        rw [hstep, ih _ _ (List.nodup_cons.mp hnd).2]
        refine Prod.ext ?_ ?_
        · funext j
          by_cases hjt : j ∈ t
          · simp [hjt, List.mem_cons_of_mem]
          · by_cases hji : j = i
            · subst hji
              simp [hjt, Function.update_same]
            · simp [hjt, hji, Function.update_noteq hji]
        · have hfe : t.filter (fun x => Function.update ks i 0 x ≠ 0)
              = t.filter (fun x => ks x ≠ 0) := by
            refine List.filter_congr ?_
            intro x hx
            have hxi : x ≠ i := fun hc => hnotmem (hc ▸ hx)
            rw [Function.update_noteq hxi]
          have hfc : (i :: t).filter (fun x => ks x ≠ 0)
              = i :: t.filter (fun x => ks x ≠ 0) := by
            rw [List.filter_cons_of_pos]
            simpa using h
          rw [hfe, hfc, List.map_cons, List.append_assoc, List.singleton_append]
      · have hstep : clear_step (ks, effs) i = (ks, effs) := by
          simp only [clear_step]
          rw [if_neg h]
        rw [hstep, ih _ _ (List.nodup_cons.mp hnd).2]
        have hz : ks i = 0 := not_not.mp h
        refine Prod.ext ?_ ?_
        · funext j
          by_cases hjt : j ∈ t
          · simp [hjt, List.mem_cons_of_mem]
          · by_cases hji : j = i
            · subst hji
              simp [hjt, hz]
            · simp [hjt, hji]
        · have hfc : (i :: t).filter (fun x => ks x ≠ 0)
              = t.filter (fun x => ks x ≠ 0) := by
            rw [List.filter_cons_of_neg]
            simpa using hz
          rw [hfc]

/-- `clear_vkbd` zeroes the vector and emits exactly the releases of the
codes that were pressed, in index order. -/
lemma clear_vkbd_eq (ks : KS) :
    clear_vkbd ks
      = ((fun _ => 0 : KS),
         ((List.finRange 256).filter (fun i => ks i ≠ 0)).map
           (fun i => Eff.sinkKey i 0)) := by
  rw [clear_vkbd, foldl_clear _ _ _ (List.nodup_finRange 256)]
  refine Prod.ext ?_ ?_
  · funext j
    simp [List.mem_finRange]
  · simp

/-- The push-front loop of `load_configs` reverses its input. -/
lemma foldl_cons_reverse :
    ∀ (l acc : List ConfigEnt),
      l.foldl (fun acc ent => ent :: acc) acc = l.reverse ++ acc := by
  intro l
  induction l with
  | nil => intro acc; simp
  | cons e t ih =>
      intro acc
      rw [List.foldl_cons, ih]
      simp

/-- C2: for every keystate vector reachable by a sequence of `send_key`
calls, `clear_vkbd` emits exactly one release (state 0) to the virtual sink
for each code whose keystate entry is non-zero, zeroes it, and touches no
other code; afterwards the keystate vector is all zero. -/
theorem clear_vkbd_releases_each_pressed_once (ks : KS) (h : Reachable ks) :
    (clear_vkbd ks).1 = (fun _ => 0) ∧
    (∀ c : Fin 256, ks c ≠ 0 → (clear_vkbd ks).2.count (Eff.sinkKey c 0) = 1) ∧
    (∀ c : Fin 256, ks c = 0 → (clear_vkbd ks).2.count (Eff.sinkKey c 0) = 0) ∧
    (∀ e ∈ (clear_vkbd ks).2, ∃ c : Fin 256, ks c ≠ 0 ∧ e = Eff.sinkKey c 0) := by
  clear h
  have hinj : Function.Injective (fun i : Fin 256 => Eff.sinkKey i 0) := by
    intro a b hab
    simpa using hab
  rw [clear_vkbd_eq ks]
  refine ⟨rfl, ?_, ?_, ?_⟩
  · intro c hc
    have h1 : (((List.finRange 256).filter (fun i => ks i ≠ 0)).map
        (fun i => Eff.sinkKey i 0)).count (Eff.sinkKey c 0)
        = ((List.finRange 256).filter (fun i => ks i ≠ 0)).count c :=
      List.count_map_of_injective _ _ hinj c
    rw [h1, List.count_filter (by simpa using hc)]
    exact List.count_eq_one_of_mem (List.nodup_finRange 256) (List.mem_finRange c)
  · intro c hc
    refine List.count_eq_zero.mpr ?_
    intro hmem
    rcases List.mem_map.mp hmem with ⟨i, hi, heq⟩
    have hic : i = c := by simpa using heq
    subst hic
    have := (List.mem_filter.mp hi).2
    simp [hc] at this
  · intro e he
    rcases List.mem_map.mp he with ⟨i, hi, heq⟩
    exact ⟨i, by simpa using (List.mem_filter.mp hi).2, heq.symm⟩

/-- Witness for C2 at the keystate reached by pressing code 30. -/
theorem clear_vkbd_releases_each_pressed_once_witness :
    (clear_vkbd ksW).1 = (fun _ => 0) ∧
    (clear_vkbd ksW).2.count (Eff.sinkKey 30 0) = 1 :=
  ⟨(clear_vkbd_releases_each_pressed_once ksW ⟨[((30 : Fin 256), 1)], rfl⟩).1,
   (clear_vkbd_releases_each_pressed_once ksW ⟨[((30 : Fin 256), 1)], rfl⟩).2.1 30
     (by decide)⟩

/-- C3: `lookup_config_ent` bounds every entry's rank, returns rank 0 with a
null entry exactly when no entry matches, otherwise returns the first entry
of maximal rank in iteration order; and the registry built by `load_configs`
is the reverse of load order, so that first entry is the last loaded. -/
theorem lookup_config_ent_best_match (cfgs : List ConfigEnt) (id : Nat) :
    (∀ e ∈ cfgs, e.config.checkMatch id ≤ (lookup_config_ent cfgs id).1) ∧
    ((lookup_config_ent cfgs id).1 = 0 ↔ ∀ e ∈ cfgs, e.config.checkMatch id = 0) ∧
    ((lookup_config_ent cfgs id).1 = 0 → (lookup_config_ent cfgs id).2 = none) ∧
    ((lookup_config_ent cfgs id).1 ≠ 0 →
       (lookup_config_ent cfgs id).2
         = cfgs.find?
             (fun e => e.config.checkMatch id == (lookup_config_ent cfgs id).1)) ∧
    (∀ parsed : List ConfigEnt, load_configs_list parsed = parsed.reverse) := by
  have hub : ∀ e ∈ cfgs, e.config.checkMatch id ≤ (lookup_config_ent cfgs id).1 := by
    intro e he
    rw [lookup_config_ent, foldl_lookup_fst]
    exact mem_le_foldl_max id cfgs 0 e he
  refine ⟨hub, ?_, ?_, ?_, ?_⟩
  · constructor
    · intro h0 e he
      exact Nat.le_zero.mp (h0 ▸ hub e he)
    · intro hall
      rw [lookup_config_ent, foldl_lookup_fst]
      rcases foldl_max_attained id cfgs 0 with h0 | ⟨x, hx, hrk⟩
      · exact h0
      · rw [← hrk]
        exact hall x hx
  · intro h0
    have hsnd := foldl_lookup_snd id cfgs 0 none
    have hne : ¬ 0 < (cfgs.foldl (lookup_step id) (0, none)).1 := by
      rw [lookup_config_ent] at h0
      omega
    rw [lookup_config_ent, hsnd, if_neg hne]
  · intro hne
    have hsnd := foldl_lookup_snd id cfgs 0 none
    have hpos : 0 < (cfgs.foldl (lookup_step id) (0, none)).1 := by
      rw [lookup_config_ent] at hne
      omega
    rw [lookup_config_ent, hsnd, if_pos hpos]
  · intro parsed
    rw [load_configs_list, foldl_cons_reverse]
    simp

/-- Witness for C3 on a registry whose two entries rank a device 1 and 2. -/
theorem lookup_config_ent_best_match_witness :
    entRank1.config.checkMatch 0 ≤ (lookup_config_ent [entRank1, entRank2] 0).1 ∧
    (lookup_config_ent [entRank1, entRank2] 0).2
      = List.find?
          (fun e => e.config.checkMatch 0 == (lookup_config_ent [entRank1, entRank2] 0).1)
          [entRank1, entRank2] :=
  ⟨(lookup_config_ent_best_match [entRank1, entRank2] 0).1 entRank1
     (List.mem_cons_self _ _),
   (lookup_config_ent_best_match [entRank1, entRank2] 0).2.2.2.1 (by decide)⟩

/-- `load_configs` yields the reverse of load order. -/
lemma load_configs_list_eq_reverse (l : List ConfigEnt) :
    load_configs_list l = l.reverse := by
  rw [load_configs_list, foldl_cons_reverse]
  simp

/-- `manage_device` never changes the device's identity. -/
lemma manage_device_fst_path (cfgs : List ConfigEnt) (dev : Device) :
    (manage_device cfgs dev).1.path = dev.path := by
  simp only [manage_device]
  split
  · split <;> rfl
  · rfl

/-- C1: `manage_device` grabs and associates the device with the looked-up
entry's keyboard iff the rank is at least 1 and the device has the keyboard
capability, or the rank is exactly 2 and it has a mouse or absolute-mouse
capability; otherwise it is ungrabbed with a null association.  A rank-2
pointer-only device is bound; a rank-1 pointer-only device is not. -/
theorem manage_device_grab_iff (cfgs : List ConfigEnt) (dev : Device)
    (h : dev.grab_ok = true) :
    ((1 ≤ (lookup_config_ent cfgs (device_id dev)).1 ∧ dev.cap_keyboard = true) ∨
       ((lookup_config_ent cfgs (device_id dev)).1 = 2 ∧
         (dev.cap_mouse = true ∨ dev.cap_mouse_abs = true)) →
       (manage_device cfgs dev).1.grabbed = true ∧
       ∃ e, (lookup_config_ent cfgs (device_id dev)).2 = some e ∧
         (manage_device cfgs dev).1.data = some e.kbd) ∧
    (¬ ((1 ≤ (lookup_config_ent cfgs (device_id dev)).1 ∧ dev.cap_keyboard = true) ∨
         ((lookup_config_ent cfgs (device_id dev)).1 = 2 ∧
           (dev.cap_mouse = true ∨ dev.cap_mouse_abs = true))) →
       (manage_device cfgs dev).1.grabbed = false ∧
       (manage_device cfgs dev).1.data = none) ∧
    (dev.cap_keyboard = false → dev.cap_mouse = true ∨ dev.cap_mouse_abs = true →
       (lookup_config_ent cfgs (device_id dev)).1 = 2 →
       (manage_device cfgs dev).1.grabbed = true) ∧
    (dev.cap_keyboard = false →
       (lookup_config_ent cfgs (device_id dev)).1 = 1 →
       (manage_device cfgs dev).1.grabbed = false ∧
       (manage_device cfgs dev).1.data = none) := by
  by_cases hc :
      ((lookup_config_ent cfgs (device_id dev)).1 ≠ 0 ∧ dev.cap_keyboard = true) ∨
      ((lookup_config_ent cfgs (device_id dev)).1 = 2 ∧
        (dev.cap_mouse = true ∨ dev.cap_mouse_abs = true))
  · have hne : (lookup_config_ent cfgs (device_id dev)).1 ≠ 0 := by
      rcases hc with ⟨h1, _⟩ | ⟨h1, _⟩
      · exact h1
      · omega
    have hmd : (manage_device cfgs dev).1
        = { dev with
              grabbed := true,
              data := (lookup_config_ent cfgs (device_id dev)).2.map (fun e => e.kbd) } := by
      simp only [manage_device]
      rw [if_pos hc, if_pos h]
    obtain ⟨e, hsome, _, _⟩ := lookup_ne_zero_some cfgs (device_id dev) hne
    refine ⟨fun _ => ⟨by rw [hmd], e, hsome, ?_⟩, fun hnc => ?_, fun _ _ _ => by rw [hmd],
      fun hk h1 => ?_⟩
    · rw [hmd, hsome]
      rfl
    · exfalso
      apply hnc
      rcases hc with ⟨h1, h2⟩ | hr
      · exact Or.inl ⟨Nat.one_le_iff_ne_zero.mpr h1, h2⟩
      · exact Or.inr hr
    · exfalso
      rcases hc with ⟨_, h2⟩ | ⟨h2, _⟩
      · rw [hk] at h2
        exact Bool.false_ne_true h2
      · omega
  · have hmd : (manage_device cfgs dev).1 = { dev with grabbed := false, data := none } := by
      simp only [manage_device]
      rw [if_neg hc]
    refine ⟨fun hC => ?_, fun _ => ⟨by rw [hmd], by rw [hmd]⟩, fun hk hp h2 => ?_,
      fun _ _ => ⟨by rw [hmd], by rw [hmd]⟩⟩
    · exfalso
      apply hc
      rcases hC with ⟨h1, h2⟩ | hr
      · exact Or.inl ⟨Nat.one_le_iff_ne_zero.mp h1, h2⟩
      · exact Or.inr hr
    · exact absurd (Or.inr ⟨h2, hp⟩) hc

/-- Witness for C1: a rank-2 pointer-only device is grabbed and bound; a
rank-1 pointer-only device is ungrabbed with a null association. -/
theorem manage_device_grab_iff_witness :
    (manage_device [entRank2] devPointer).1.grabbed = true ∧
    (manage_device [entRank1] devPointer).1.grabbed = false ∧
    (manage_device [entRank1] devPointer).1.data = none :=
  ⟨(manage_device_grab_iff [entRank2] devPointer rfl).2.2.1 rfl (Or.inl rfl) (by decide),
   ((manage_device_grab_iff [entRank1] devPointer rfl).2.2.2 rfl (by decide)).1,
   ((manage_device_grab_iff [entRank1] devPointer rfl).2.2.2 rfl (by decide)).2⟩

/-- C4: `reload` frees the registry and rebuilds it from the configuration
directory, re-binds every device of the table against the new registry
(the table membership is unchanged), and finally clears the virtual sink so
every key left pressed receives a release. -/
theorem reload_rebuilds_rebinds_clears (env : Env) (s : DaemonState) :
    (reload env s).1.configs = env.dirConfigs.reverse ∧
    (reload env s).1.devices
      = s.devices.map (fun d => (manage_device env.dirConfigs.reverse d).1) ∧
    (reload env s).1.devices.map Device.path = s.devices.map Device.path ∧
    (reload env s).1.keystate = (fun _ => 0) ∧
    (reload env s).1.lastKbd = s.lastKbd ∧
    (reload env s).1.listeners = s.listeners ∧
    (reload env s).2
      = (s.devices.map (fun d => (manage_device env.dirConfigs.reverse d).2)).flatten
          ++ (clear_vkbd s.keystate).2 ∧
    (∀ c : Fin 256, s.keystate c ≠ 0 → Eff.sinkKey c 0 ∈ (reload env s).2) := by
  have hrel : reload env s
      = ({ configs := env.dirConfigs.reverse,
           devices := s.devices.map (fun d => (manage_device env.dirConfigs.reverse d).1),
           keystate := fun _ => 0,
           lastKbd := s.lastKbd,
           listeners := s.listeners },
         (s.devices.map (fun d => (manage_device env.dirConfigs.reverse d).2)).flatten
           ++ (clear_vkbd s.keystate).2) := by
    simp only [reload, free_configs, load_configs, load_configs_list_eq_reverse,
      clear_vkbd_eq, List.map_map]
    rfl
  refine ⟨by rw [hrel], by rw [hrel], ?_, by rw [hrel], by rw [hrel], by rw [hrel],
    by rw [hrel], ?_⟩
  · rw [hrel]
    simp only [List.map_map]
    refine List.map_congr_left ?_
    intro d _
    exact manage_device_fst_path env.dirConfigs.reverse d
  · intro c hc
    rw [hrel]
    refine List.mem_append_right _ ?_
    rw [clear_vkbd_eq]
    exact List.mem_map.mpr
      ⟨c, List.mem_filter.mpr ⟨List.mem_finRange c, by simpa using hc⟩, rfl⟩

/-- Witness for C4: reloading the witness state rebuilds the registry in
reverse load order and releases the pressed key 30. -/
theorem reload_rebuilds_rebinds_clears_witness :
    (reload envW stW2).1.configs = envW.dirConfigs.reverse ∧
    Eff.sinkKey 30 0 ∈ (reload envW stW2).2 :=
  ⟨(reload_rebuilds_rebinds_clears envW stW2).1,
   (reload_rebuilds_rebinds_clears envW stW2).2.2.2.2.2.2.2 30 (by decide)⟩

/- Dispatcher lemmas. -/

/-- `reload` does not touch the dispatcher's `last_kbd`. -/
lemma reload_lastKbd (env : Env) (s : DaemonState) :
    (reload env s).1.lastKbd = s.lastKbd := rfl

/-- `handle_client` does not touch the dispatcher's `last_kbd`. -/
lemma handle_client_lastKbd (env : Env) (s : DaemonState) (con : Int)
    (msg : IpcMessage) :
    (handle_client env s con msg).1.lastKbd = s.lastKbd := by
  obtain ⟨t, d⟩ := msg
  cases t <;> rfl

/-- One dispatcher step updates `last_kbd` exactly as `expectedLastKbd`. -/
lemma event_handler_lastKbd (env : Env) (s : DaemonState) (ev : Event) :
    (event_handler env s ev).map (fun r => r.1.lastKbd)
      = (event_handler env s ev).map (fun _ => expectedLastKbd s.lastKbd [ev]) := by
  cases ev with
  | timeoutEv => cases hk : s.lastKbd <;> simp [event_handler, hk, expectedLastKbd]
  | devEvent dev devev tl =>
      cases hd : dev.data with
      | none => simp [event_handler, hd, expectedLastKbd]
      | some k => cases devev <;> simp [event_handler, hd, expectedLastKbd]
  | devAdd dev =>
      by_cases hn : dev.name = VKBD_NAME
      · simp [event_handler, hn, expectedLastKbd]
      · by_cases hl : s.devices.length < MAX_DEVICES
        · simp [event_handler, hn, add_device, hl, expectedLastKbd]
        · simp [event_handler, hn, add_device, hl, expectedLastKbd]
  | devRemove dev => simp [event_handler, expectedLastKbd]
  | fdActivity fd con msg =>
      by_cases hf : fd = env.ipcfd
      · simp [event_handler, hf, expectedLastKbd, handle_client_lastKbd]
      · simp [event_handler, hf, expectedLastKbd]
  | unknownEv => simp [event_handler, expectedLastKbd]

/-- Over any dispatched event sequence, `last_kbd` equals the fold of the
per-event update. -/
lemma runEvents_lastKbd (env : Env) :
    ∀ (evs : List Event) (s : DaemonState),
      (runEvents env s evs).map (fun p => p.1.lastKbd)
        = (runEvents env s evs).map (fun _ => expectedLastKbd s.lastKbd evs) := by
  intro evs
  induction evs with
  | nil => intro s; rfl
  | cons ev rest ih =>
      intro s
      have h1 := event_handler_lastKbd env s ev
      cases hh : event_handler env s ev with
      | none => simp [runEvents, hh]
      | some r =>
          obtain ⟨s', t', effs'⟩ := r
          rw [hh] at h1
          simp only [Option.map_some', Option.some.injEq] at h1
          have h2 := ih s'
          cases hr : runEvents env s' rest with
          | none => simp [runEvents, hh, hr]
          | some q =>
              obtain ⟨sq, effsq⟩ := q
              rw [hr] at h2
              simp only [Option.map_some', Option.some.injEq] at h2
              simp only [runEvents, hh, hr, Option.map_some']
              rw [h2, h1]
              rfl

/-- C5 counterexample: after a KEY event on the device bound to keyboard 1
followed by a MOUSE_MOVE event on the device bound to keyboard 2, `last_kbd`
is keyboard 2 although the keyboard most recently passed a non-tick key
event is keyboard 1; so `last_kbd` is neither null nor that keyboard. -/
theorem lastKbd_claim_counterexample :
    (runEvents envW stW cexEvents).map (fun p => (p.1.lastKbd, lastNonTickKbd p.2))
      = some (some 2, some 1) ∧
    ¬ ((some 2 : Option Nat) = none ∨ (some 2 : Option Nat) = some 1) := by
  exact ⟨by decide, by decide⟩

/-- C5 (amended): across every dispatched event sequence, `last_kbd` is the
bound keyboard of the most recent device event that occurred on a bound
device — it is set by every device-event kind (KEY, MOUSE_MOVE,
MOUSE_MOVE_ABS, MOUSE_SCROLL), not only KEY — and a TIMEOUT delivers its
tick `(0, 0)` to exactly that keyboard (doing nothing when it is null). -/
theorem lastKbd_tracks_last_bound_device_event (env : Env) (s0 : DaemonState)
    (evs : List Event) :
    ((runEvents env s0 evs).map (fun p => p.1.lastKbd)
       = (runEvents env s0 evs).map (fun _ => expectedLastKbd s0.lastKbd evs)) ∧
    (∀ s : DaemonState, event_handler env s Event.timeoutEv
       = some (s, s.lastKbd.elim 0 (fun k => env.kbdStep k 0 0),
               s.lastKbd.elim [] (fun k => [Eff.kbdKey k 0 0]))) := by
  refine ⟨runEvents_lastKbd env evs s0, ?_⟩
  intro s
  cases hk : s.lastKbd <;> simp [event_handler, hk]

/-- C6: a MOUSE_SCROLL event on a bound device first delivers a press then a
release of the reserved external-mouse-button code to the bound keyboard, in
that order, and only afterwards forwards the scroll deltas to the virtual
sink; the handler returns the incoming `timeleft` unchanged. -/
theorem mouse_scroll_press_release_then_forward (env : Env) (s : DaemonState)
    (dev : Device) (x y tl : Int) (k : Nat) (h : dev.data = some k) :
    event_handler env s (Event.devEvent dev (DevEv.mouseScroll x y) tl)
      = some ({ s with lastKbd := some k }, tl,
          [Eff.kbdKey k KEYD_EXTERNAL_MOUSE_BUTTON 1,
           Eff.kbdKey k KEYD_EXTERNAL_MOUSE_BUTTON 0,
           Eff.sinkMouseScroll x y]) := by
  simp [event_handler, h]

/-- Witness for C6 on the bound mouse device. -/
theorem mouse_scroll_press_release_then_forward_witness :
    event_handler envW stW (Event.devEvent cexDevB (DevEv.mouseScroll 0 (-1)) 5)
      = some ({ stW with lastKbd := some 2 }, 5,
          [Eff.kbdKey 2 KEYD_EXTERNAL_MOUSE_BUTTON 1,
           Eff.kbdKey 2 KEYD_EXTERNAL_MOUSE_BUTTON 0,
           Eff.sinkMouseScroll 0 (-1)]) :=
  mouse_scroll_press_release_then_forward envW stW cexDevB 0 (-1) 5 2 rfl

/-- C9: DEV_ADD (when the table can take the device, or the virtual sink is
filtered), DEV_REMOVE, FD_ACTIVITY and unrecognized events all make the
handler return 0 — discarding any in-flight timeout — whereas a device event
on an unbound device returns the incoming `timeleft` unchanged. -/
theorem event_handler_timeout_returns (env : Env) (s : DaemonState) :
    (∀ dev : Device, dev.name = VKBD_NAME ∨ s.devices.length < MAX_DEVICES →
       (event_handler env s (Event.devAdd dev)).map (fun r => r.2.1) = some 0) ∧
    (∀ dev : Device,
       (event_handler env s (Event.devRemove dev)).map (fun r => r.2.1) = some 0) ∧
    (∀ (fd con : Int) (msg : IpcMessage),
       (event_handler env s (Event.fdActivity fd con msg)).map (fun r => r.2.1)
         = some 0) ∧
    ((event_handler env s Event.unknownEv).map (fun r => r.2.1) = some 0) ∧
    (∀ (dev : Device) (devev : DevEv) (tl : Int), dev.data = none →
       (event_handler env s (Event.devEvent dev devev tl)).map (fun r => r.2.1)
         = some tl) := by
  refine ⟨?_, ?_, ?_, ?_, ?_⟩
  · intro dev hdev
    by_cases hn : dev.name = VKBD_NAME
    · simp [event_handler, hn]
    · have hl : s.devices.length < MAX_DEVICES := by
        rcases hdev with hdev | hdev
        · exact absurd hdev hn
        · exact hdev
      simp [event_handler, hn, add_device, hl]
  · intro dev
    simp [event_handler]
  · intro fd con msg
    by_cases hf : fd = env.ipcfd
    · simp [event_handler, hf]
    · simp [event_handler, hf]
  · simp [event_handler]
  · intro dev devev tl hd
    simp [event_handler, hd]

/-- Witness for C9 at concrete events. -/
theorem event_handler_timeout_returns_witness :
    ((event_handler envW stW (Event.devAdd devPointer)).map (fun r => r.2.1)
       = some 0) ∧
    ((event_handler envW stW (Event.devRemove cexDevA)).map (fun r => r.2.1)
       = some 0) ∧
    ((event_handler envW stW
        (Event.devEvent devUnbound (DevEv.key 30 1) 7)).map (fun r => r.2.1)
       = some 7) :=
  ⟨(event_handler_timeout_returns envW stW).1 devPointer (Or.inr (by decide)),
   (event_handler_timeout_returns envW stW).2.1 cexDevA,
   (event_handler_timeout_returns envW stW).2.2.2.2 devUnbound (DevEv.key 30 1) 7 rfl⟩

/-- C7: a BIND request runs `kbd_eval` on every registry entry's keyboard
(each call occurs even after one succeeds), replies SUCCESS iff at least one
eval returned 0, otherwise replies FAIL with the current error string, and
closes the connection in both cases. -/
theorem handle_client_bind_evals_all (env : Env) (s : DaemonState) (con : Int)
    (data : String) :
    handle_client env s con ⟨IpcMsgType.bindCmd, data⟩
      = (s, s.configs.map (fun ent => Eff.evalCall ent.kbd data)
            ++ (if s.configs.any (fun ent => env.evalFn ent.kbd data = 0)
                then send_success con else send_fail con env.errstr)) ∧
    ((s.configs.any (fun ent => env.evalFn ent.kbd data = 0)) = true
       ↔ ∃ ent ∈ s.configs, env.evalFn ent.kbd data = 0) ∧
    (∀ ent ∈ s.configs, Eff.evalCall ent.kbd data
       ∈ (handle_client env s con ⟨IpcMsgType.bindCmd, data⟩).2) ∧
    Eff.closeCon con ∈ (handle_client env s con ⟨IpcMsgType.bindCmd, data⟩).2 := by
  refine ⟨rfl, ?_, ?_, ?_⟩
  · simp [List.any_eq_true]
  · intro ent hent
    show Eff.evalCall ent.kbd data
      ∈ s.configs.map (fun e => Eff.evalCall e.kbd data) ++ _
    exact List.mem_append_left _ (List.mem_map.mpr ⟨ent, hent, rfl⟩)
  · show Eff.closeCon con ∈ s.configs.map (fun e => Eff.evalCall e.kbd data) ++ _
    refine List.mem_append_right _ ?_
    by_cases hs : (s.configs.any (fun ent => env.evalFn ent.kbd data = 0)) = true
    · simp [hs, send_success]
    · simp [hs, send_fail]

/-- Witness for C7: both entries are evaluated and the connection closed. -/
theorem handle_client_bind_evals_all_witness :
    Eff.evalCall entRank1.kbd "a = b"
      ∈ (handle_client envW stW 9 ⟨IpcMsgType.bindCmd, "a = b"⟩).2 ∧
    Eff.closeCon 9 ∈ (handle_client envW stW 9 ⟨IpcMsgType.bindCmd, "a = b"⟩).2 :=
  ⟨(handle_client_bind_evals_all envW stW 9 "a = b").2.2.1 entRank1
     (List.mem_cons_of_mem _ (List.mem_cons_self _ _)),
   (handle_client_bind_evals_all envW stW 9 "a = b").2.2.2⟩

/- Layer broadcast lemmas. -/

lemma foldl_layer (writeRes : Int → Int) (line : String) :
    ∀ (ls : List Int) (a1 : List Int) (a2 : List Eff),
      ls.foldl (layer_step writeRes line) (a1, a2)
        = (a1 ++ ls.filter (fun fd => writeRes fd = (line.length : Int)),
           a2 ++ ls.map (fun fd =>
             if writeRes fd = (line.length : Int)
             then Eff.writeStr fd line else Eff.closeCon fd)) := by
  intro ls
  induction ls with
  | nil => intro a1 a2; simp
  | cons fd t ih =>
      intro a1 a2
      rw [List.foldl_cons]
      by_cases h : writeRes fd = (line.length : Int)
      · have hstep : layer_step writeRes line (a1, a2) fd
            = (a1 ++ [fd], a2 ++ [Eff.writeStr fd line]) := by
          simp only [layer_step]
          rw [if_pos h]
        rw [hstep, ih, List.filter_cons_of_pos (by simpa using h), List.map_cons,
          if_pos h]
        simp
      · have hstep : layer_step writeRes line (a1, a2) fd
            = (a1, a2 ++ [Eff.closeCon fd]) := by
          simp only [layer_step]
          rw [if_neg h]
        rw [hstep, ih, List.filter_cons_of_neg (by simpa using h), List.map_cons,
          if_neg h]
        simp

/-- `layer_observer` keeps the full-write listeners and closes the rest,
emitting one write effect per listener. -/
lemma layer_observer_eq (writeRes : Int → Int) (name : String) (state : Bool)
    (listeners : List Int) :
    layer_observer writeRes name state listeners
      = (listeners.filter
           (fun fd => writeRes fd = ((layer_line name state).length : Int)),
         listeners.map (fun fd =>
           if writeRes fd = ((layer_line name state).length : Int)
           then Eff.writeStr fd (layer_line name state) else Eff.closeCon fd)) := by
  rw [layer_observer]
  by_cases he : listeners.length = 0
  · rw [if_pos he]
    have hnil : listeners = [] := List.length_eq_zero.mp he
    subst hnil
    simp
  · rw [if_neg he, foldl_layer]
    simp

/-- C8: during a layer broadcast every listener whose write transfers fewer
bytes than the line is closed and dropped in the same pass, every listener
whose write transfers the full line is kept, and the compacted set's size is
the number of successful writes. -/
theorem layer_observer_backpressure (writeRes : Int → Int) (name : String)
    (state : Bool) (listeners : List Int)
    (h : ∀ fd ∈ listeners, writeRes fd ≤ ((layer_line name state).length : Int)) :
    (layer_observer writeRes name state listeners).1
      = listeners.filter
          (fun fd => writeRes fd = ((layer_line name state).length : Int)) ∧
    (layer_observer writeRes name state listeners).1.length
      = listeners.countP
          (fun fd => writeRes fd = ((layer_line name state).length : Int)) ∧
    (∀ fd ∈ listeners, writeRes fd < ((layer_line name state).length : Int) →
       Eff.closeCon fd ∈ (layer_observer writeRes name state listeners).2 ∧
       fd ∉ (layer_observer writeRes name state listeners).1) ∧
    (∀ fd ∈ listeners, ¬ writeRes fd < ((layer_line name state).length : Int) →
       fd ∈ (layer_observer writeRes name state listeners).1 ∧
       Eff.closeCon fd ∉ (layer_observer writeRes name state listeners).2) := by
  rw [layer_observer_eq]
  refine ⟨rfl, (List.countP_eq_length_filter _ _).symm, ?_, ?_⟩
  · intro fd hfd hlt
    constructor
    · exact List.mem_map.mpr ⟨fd, hfd, by rw [if_neg (Int.ne_of_lt hlt)]⟩
    · intro hmem
      have := List.mem_filter.mp hmem
      simp only [decide_eq_true_eq] at this
      omega
  · intro fd hfd hnlt
    have heq : writeRes fd = ((layer_line name state).length : Int) :=
      le_antisymm (h fd hfd) (not_lt.mp hnlt)
    constructor
    · exact List.mem_filter.mpr ⟨hfd, by simpa using heq⟩
    · intro hmem
      rcases List.mem_map.mp hmem with ⟨fd', hfd', heff⟩
      by_cases h2 : writeRes fd' = ((layer_line name state).length : Int)
      · rw [if_pos h2] at heff
        exact Eff.noConfusion heff
      · rw [if_neg h2] at heff
        have : fd' = fd := by
          injection heff
        subst this
        exact h2 heq

/-- Witness for C8: listener 1's write transfers the 5-byte line `+nav\n`
and is kept; listener 2's transfers 2 bytes and is closed. -/
theorem layer_observer_backpressure_witness :
    (layer_observer wrW "nav" true [1, 2]).1
      = [1, 2].filter (fun fd => wrW fd = ((layer_line "nav" true).length : Int)) ∧
    Eff.closeCon 2 ∈ (layer_observer wrW "nav" true [1, 2]).2 :=
  ⟨(layer_observer_backpressure wrW "nav" true [1, 2] (by decide)).1,
   ((layer_observer_backpressure wrW "nav" true [1, 2] (by decide)).2.2.1 2
      (by decide) (by decide)).1⟩

/-- C10: `add_device` requires the table to hold fewer than `MAX_DEVICES`
entries; under that precondition the device is appended at the end and bound
via `manage_device`, while a full table fails the assertion with no graceful
rejection — in contrast with `add_listener`, which on a full set writes a
rejection message, closes the connection and leaves the set unchanged. -/
theorem add_device_asserts_capacity (s : DaemonState) (dev : Device) (con : Int) :
    (s.devices.length < MAX_DEVICES →
       add_device s dev
         = some ({ s with devices := s.devices ++ [(manage_device s.configs dev).1] },
                 (manage_device s.configs dev).2)) ∧
    (¬ s.devices.length < MAX_DEVICES → add_device s dev = none) ∧
    (s.listeners.length = 32 →
       add_listener s.listeners con
         = (s.listeners,
            [Eff.writeStr con "Max listeners exceeded\n", Eff.closeCon con])) := by
  refine ⟨fun hl => ?_, fun hl => ?_, fun hf => ?_⟩
  · simp [add_device, hl]
  · simp [add_device, hl]
  · simp [add_listener, hf]

/-- Witness for C10: an append below capacity and a rejected 33rd listener. -/
theorem add_device_asserts_capacity_witness :
    add_device stW cexDevA
      = some ({ stW with
                  devices := stW.devices ++ [(manage_device stW.configs cexDevA).1] },
              (manage_device stW.configs cexDevA).2) ∧
    add_listener stFull.listeners 9
      = (stFull.listeners,
         [Eff.writeStr 9 "Max listeners exceeded\n", Eff.closeCon 9]) :=
  ⟨(add_device_asserts_capacity stW cexDevA 9).1 (by decide),
   (add_device_asserts_capacity stFull cexDevA 9).2.2 (by decide)⟩

end Keyd
